import Mathlib

/-!
Shallow embedding of the core of the `contemplate` template-rendering tool
(files `src/plan.rs`, `src/datasource/mod.rs`, `src/datasource/k8s.rs`),
together with theorems settling the specification claims about it.

Modelling conventions:
* Filesystem paths are lists of components (`PathC`); the filesystem is an
  association list from paths to file data (content and mtime).
* The minijinja templating engine is a black box: compilation success and
  the render function are abstract data carried in the `Engine` structure,
  mirroring the spec's "compile/render" boundary.
* Fallible Rust code returning `Result` is embedded as functions returning
  the mutated state together with `Except Error α`.
-/

/-- Rust `PathBuf`, modelled as its list of path components. -/
abbrev PathC := List String

/-- Content and modification time of one file. -/
structure FileData where
  content : String
  mtime : Nat
deriving DecidableEq, Repr

/-- The filesystem: an association list from paths to file data. -/
abbrev FileSys := List (PathC × FileData)

/-- First-match lookup of a path in the filesystem. -/
def fsLookup : FileSys → PathC → Option FileData
  | [], _ => none
  | (q, fd) :: rest, p => if q = p then some fd else fsLookup rest p

/-- Write `content` at `p` with mtime `now`, replacing an existing entry
(or appending a fresh one). -/
def fsWrite : FileSys → PathC → String → Nat → FileSys
  | [], p, c, t => [(p, ⟨c, t⟩)]
  | (q, fd) :: rest, p, c, t =>
    if q = p then (q, ⟨c, t⟩) :: rest else (q, fd) :: fsWrite rest p c t

/-- The whole observable world of the process: the filesystem plus the
standard streams. -/
structure World where
  fs : FileSys
  stdin : String
  stdout : String
  stderr : String
deriving DecidableEq, Repr

/-- The error type of `src/error.rs`, restricted to the variants the core
uses.  The payloads of I/O and template errors are abstracted. -/
inductive Error where
  | ioError (tag : String)
  | templateError
  | backupWouldBeOverwritten (path : PathC)
  | unknownFileExtension (ext : String)
  | unknownFileType (path : PathC)
  | figmentError
deriving DecidableEq, Repr

/-- The render context (`serde_json::Value` in the source); its structure is
irrelevant to the claims, so an association list stands in for it. -/
abbrev Ctx := List (String × String)

/-- The minijinja `Environment`: a cache of compiled templates keyed by
name, plus the black-box compile/render behaviour of the engine. -/
structure Engine where
  templates : List (PathC × String)
  compilesOk : String → Bool
  renderFn : PathC → Ctx → Except Unit String

/-- `Environment::add_template_owned`: store the template text under its
name (replacing any previous template of the same name). -/
def tplAdd : List (PathC × String) → PathC → String → List (PathC × String)
  | [], n, t => [(n, t)]
  | (m, s) :: rest, n, t =>
    if m = n then (m, t) :: rest else (m, s) :: tplAdd rest n t

/-- `Environment::get_template` followed by lookup of the stored text. -/
def tplLookup : List (PathC × String) → PathC → Option String
  | [], _ => none
  | (m, s) :: rest, n => if m = n then some s else tplLookup rest n

/-- `get_template(env)?.render(ctx)?`: fails when the name is not cached or
when the engine's render fails; both surface as `TemplateError`. -/
def Engine.render (env : Engine) (name : PathC) (ctx : Ctx) : Except Error String :=
  match tplLookup env.templates name with
  | none => .error .templateError
  | some _ =>
    match env.renderFn name ctx with
    | .ok s => .ok s
    | .error _ => .error .templateError

/-- `TemplateSource` of `src/plan.rs`: a template on disk, on standard
input, or already compiled into the engine under a name, remembering
whether the raw text ended in a newline. -/
inductive TemplateSource where
  | fileSystem (path : PathC)
  | stdIn
  | cached (name : PathC) (contains_trailing_newline : Bool)
deriving DecidableEq, Repr

namespace TemplateSource

/-- `TemplateSource::path`. -/
def path? : TemplateSource → Option PathC
  | .fileSystem p => some p
  | .cached n _ => some n
  | .stdIn => none

/-- `chars().last().map(|c| c == '\n').unwrap_or(false)` on the raw text. -/
def endsInNewline (t : String) : Bool :=
  match t.data.getLast? with
  | some c => c == '\n'
  | none => false

/-- `TemplateSource::ensure_cached`: read the template text (file or
stdin), record the trailing-newline flag, and add it to the engine cache;
a no-op on an already-cached source.  Returns the mutated source and
engine together with the outcome. -/
def ensure_cached (src : TemplateSource) (env : Engine) (w : World) :
    TemplateSource × Engine × Except Error Unit :=
  match src with
  | .cached _ _ => (src, env, .ok ())
  | .fileSystem p =>
    match fsLookup w.fs p with
    | none => (src, env, .error (.ioError "open"))
    | some fd =>
      if env.compilesOk fd.content then
        (.cached p (endsInNewline fd.content),
         { env with templates := tplAdd env.templates p fd.content }, .ok ())
      else (src, env, .error .templateError)
  | .stdIn =>
    if env.compilesOk w.stdin then
      (.cached ["-"] (endsInNewline w.stdin),
       { env with templates := tplAdd env.templates ["-"] w.stdin }, .ok ())
    else (src, env, .error .templateError)

/-- `TemplateSource::get_cached_name`.  The Rust panics on a non-cached
source; that branch is unreachable after `ensure_cached` succeeds. -/
def get_cached_name : TemplateSource → PathC
  | .cached n _ => n
  | _ => []

/-- `TemplateSource::get_cached_contains_trailing_newline`.  The Rust
panics on a non-cached source; unreachable after `ensure_cached`. -/
def get_cached_contains_trailing_newline : TemplateSource → Bool
  | .cached _ b => b
  | _ => false

end TemplateSource

/-- Stand-in for the unified diff text emitted to standard error by
`TemplateDestination::diff` (the `similar` crate is a black box; only the
fact that something is appended to stderr matters to the model). -/
def unifiedDiffText (old new : String) : String :=
  "--- " ++ old ++ " +++ " ++ new

/-- `TemplateDestination` of `src/plan.rs`: a file path or standard out. -/
inductive TemplateDestination where
  | fileSystem (path : PathC)
  | stdOut
deriving DecidableEq, Repr

namespace TemplateDestination

/-- `TemplateDestination::is_stdout`. -/
def is_stdout : TemplateDestination → Bool
  | .stdOut => true
  | .fileSystem _ => false

/-- `TemplateDestination::supports_notify`: stdout destinations do not
support re-rendering in watch mode. -/
def supports_notify (d : TemplateDestination) : Bool :=
  !d.is_stdout

/-- `TemplateDestination::write_templated`, inlining `diff`.  The file
branch opens with read+write+create (creating an empty file if absent),
reads the existing content, compares it to the rendered text, logs a diff
when requested, and truncates and rewrites only when the content differs.
The stdout branch always writes everything and reports a change. -/
def write_templated (dest : TemplateDestination) (templated : String)
    (log_diff : Bool) (w : World) (now : Nat) : World × Except Error Bool :=
  match dest with
  | .fileSystem path =>
    let (w1, existing) :=
      match fsLookup w.fs path with
      | some fd => (w, fd.content)
      | none => ({ w with fs := fsWrite w.fs path "" now }, "")
    if existing = templated then (w1, .ok false)
    else
      let w2 :=
        if log_diff then
          { w1 with stderr := w1.stderr ++ unifiedDiffText existing templated }
        else w1
      ({ w2 with fs := fsWrite w2.fs path templated now }, .ok true)
  | .stdOut => ({ w with stdout := w.stdout ++ templated }, .ok true)

end TemplateDestination

/-- `Path::file_name` on a component path: the last component, unless the
path is empty or ends in a parent-directory reference. -/
def fileNameOf (p : PathC) : Option String :=
  match p.getLast? with
  | some c => if c = ".." ∨ c = "" then none else some c
  | none => none

/-- The sibling backup path `<filename>.<extension>` computed by
`do_backup` via `file_name`/`set_file_name`. -/
def backupPathOf (p : PathC) (ext : String) : Option PathC :=
  match fileNameOf p with
  | some fname => some (p.dropLast ++ [fname ++ "." ++ ext])
  | none => none

/-- `TemplateOperation` of `src/plan.rs`. -/
structure TemplateOperation where
  source : TemplateSource
  dest : TemplateDestination
  backup : Option String
deriving DecidableEq, Repr

namespace TemplateOperation

/-- `TemplateOperation::new`. -/
def new (source : TemplateSource) (dest : TemplateDestination) : TemplateOperation :=
  { source := source, dest := dest, backup := none }

/-- `TemplateOperation::with_backup_extension`. -/
def with_backup_extension (op : TemplateOperation) (ext : String) : TemplateOperation :=
  { op with backup := some ext }

/-- `TemplateOperation::do_backup`.  Mirrors the source exactly: the
backup extension is consumed by `self.backup.take()` first; if the backup
path already exists and its bytes differ from the current source file the
operation fails with `BackupWouldBeOverwritten`; otherwise the source file
is copied to the backup path. -/
def do_backup (op : TemplateOperation) (w : World) (now : Nat) :
    TemplateOperation × World × Except Error Unit :=
  match op.backup with
  | none => (op, w, .ok ())
  | some ext =>
    let op1 : TemplateOperation := { op with backup := none }
    match op.source.path? with
    | none => (op1, w, .ok ())
    | some source_path =>
      match backupPathOf source_path ext with
      | none => (op1, w, .ok ())
      | some destination_path =>
        match fsLookup w.fs destination_path with
        | some dst =>
          match fsLookup w.fs source_path with
          | none => (op1, w, .error (.ioError "open"))
          | some src =>
            if src.content = dst.content then
              (op1, { w with fs := fsWrite w.fs destination_path src.content now }, .ok ())
            else (op1, w, .error (.backupWouldBeOverwritten destination_path))
        | none =>
          match fsLookup w.fs source_path with
          | none => (op1, w, .error (.ioError "copy"))
          | some src =>
            (op1, { w with fs := fsWrite w.fs destination_path src.content now }, .ok ())

/-- `TemplateOperation::apply`: ensure the template is cached, render it,
re-append the recorded trailing newline, and — unless this is a dry run —
perform the backup and write to the destination.  Returns the mutated
operation, engine and world, and the changed flag or the error. -/
def apply (op : TemplateOperation) (env : Engine) (ctx : Ctx)
    (dry_run log_diff : Bool) (w : World) (now : Nat) :
    TemplateOperation × Engine × World × Except Error Bool :=
  match TemplateSource.ensure_cached op.source env w with
  | (src1, env1, .error e) => ({ op with source := src1 }, env1, w, .error e)
  | (src1, env1, .ok ()) =>
    let op1 : TemplateOperation := { op with source := src1 }
    match env1.render src1.get_cached_name ctx with
    | .error e => (op1, env1, w, .error e)
    | .ok rendered =>
      let templated :=
        if src1.get_cached_contains_trailing_newline then rendered ++ "\n" else rendered
      if dry_run then (op1, env1, w, .ok false)
      else
        match do_backup op1 w now with
        | (op2, w1, .error e) => (op2, env1, w1, .error e)
        | (op2, w1, .ok ()) =>
          match op2.dest.write_templated templated log_diff w1 now with
          | (w2, .error e) => (op2, env1, w2, .error e)
          | (w2, .ok changed) => (op2, env1, w2, .ok changed)

end TemplateOperation

/-- `Plan` of `src/plan.rs`: the ordered list of template operations. -/
abbrev Plan := List TemplateOperation

namespace Plan

/-- `Plan::execute`: apply every operation in order; a failing operation is
logged and skipped and execution continues.  Returns the mutated
operations, engine and world, and the operations that reported a change. -/
def execute : Plan → Engine → Ctx → Bool → Bool → World → Nat →
    Plan × Engine × World × List TemplateOperation
  | [], env, _, _, _, w, _ => ([], env, w, [])
  | op :: rest, env, ctx, dry_run, log_diff, w, now =>
    match TemplateOperation.apply op env ctx dry_run log_diff w now with
    | (op1, env1, w1, res) =>
      match execute rest env1 ctx dry_run log_diff w1 now with
      | (rest1, env2, w2, changed) =>
        match res with
        | .ok true => (op1 :: rest1, env2, w2, op1 :: changed)
        | .ok false => (op1 :: rest1, env2, w2, changed)
        | .error _ => (op1 :: rest1, env2, w2, changed)

/-- `Plan::try_execute`: apply the operations in order but stop at the
first failure, propagating its error; the remaining operations are not
applied.  On success returns the operations that reported a change. -/
def try_execute : Plan → Engine → Ctx → Bool → Bool → World → Nat →
    Plan × Engine × World × Except Error (List TemplateOperation)
  | [], env, _, _, _, w, _ => ([], env, w, .ok [])
  | op :: rest, env, ctx, dry_run, log_diff, w, now =>
    match TemplateOperation.apply op env ctx dry_run log_diff w now with
    | (op1, env1, w1, .error e) => (op1 :: rest, env1, w1, .error e)
    | (op1, env1, w1, .ok changed) =>
      match try_execute rest env1 ctx dry_run log_diff w1 now with
      | (rest1, env2, w2, .error e) => (op1 :: rest1, env2, w2, .error e)
      | (rest1, env2, w2, .ok lst) =>
        (op1 :: rest1, env2, w2, .ok (if changed then op1 :: lst else lst))

end Plan

/-- figment `Value` (vendored `coalesce` module in `src/datasource/k8s.rs`):
a tagged tree of scalars, arrays and string-keyed dictionaries.  The
`Tag` is modelled as a `Nat`; dictionaries are association lists (the Rust
`Map` is a `BTreeMap`, so keys are unique there). -/
inductive Value where
  | str (tag : Nat) (s : String)
  | num (tag : Nat) (n : Int)
  | boolV (tag : Nat) (b : Bool)
  | emptyV (tag : Nat)
  | arr (tag : Nat) (xs : List Value)
  | dict (tag : Nat) (entries : List (String × Value))
deriving Repr

/-- The `Order` enum of the vendored `coalesce` module. -/
inductive Order where
  | merge
  | join
  | adjoin
  | admerge
deriving DecidableEq, Repr

/-- `BTreeMap::remove(&key)` on an association list: the removed value (if
any) together with the remaining entries. -/
def removeKey (k : String) : List (String × Value) → Option Value × List (String × Value)
  | [] => (none, [])
  | (k1, v) :: rest =>
    if k1 = k then (some v, rest)
    else ((removeKey k rest).1, (k1, v) :: (removeKey k rest).2)

theorem removeKey_snd_sizeOf (k : String) (l : List (String × Value)) :
    sizeOf (removeKey k l).2 ≤ sizeOf l := by
  induction l with
  | nil => simp [removeKey]
  | cons hd t ih =>
    obtain ⟨k1, v⟩ := hd
    simp only [removeKey]
    split
    · simp only [List.cons.sizeOf_spec]
      omega
    · simp only [List.cons.sizeOf_spec]
      omega

theorem removeKey_fst_sizeOf (k : String) (l : List (String × Value)) (v : Value)
    (h : (removeKey k l).1 = some v) : sizeOf v < sizeOf l := by
  induction l with
  | nil => simp [removeKey] at h
  | cons hd t ih =>
    obtain ⟨k1, v1⟩ := hd
    simp only [removeKey] at h
    by_cases hk : k1 = k
    · simp [hk] at h
      subst h
      simp
      omega
    · simp [hk] at h
      have := ih h
      simp
      omega

mutual

/-- `Coalescible::coalesce` for `Value` (vendored from figment in
`src/datasource/k8s.rs`): trees coalesce recursively; arrays concatenate
only under the adjoin orders; in every other combination the join orders
keep the left value and the merge orders keep the right value whole. -/
def Value.coalesce : Value → Value → Order → Value
  | .dict t a, .dict _ b, .join => .dict t (coalesceEntries a b .join)
  | .dict t a, .dict _ b, .adjoin => .dict t (coalesceEntries a b .adjoin)
  | .dict _ a, .dict t b, .merge => .dict t (coalesceEntries a b .merge)
  | .dict _ a, .dict t b, .admerge => .dict t (coalesceEntries a b .admerge)
  | .arr t a, .arr _ b, .adjoin => .arr t (a ++ b)
  | .arr t a, .arr _ b, .admerge => .arr t (a ++ b)
  | v, _, .join => v
  | v, _, .adjoin => v
  | _, v, .merge => v
  | _, v, .admerge => v
termination_by v w _ => sizeOf v + sizeOf w

/-- `Coalescible::coalesce` for `Map<K, V>`: walk the left map, coalescing
values whose key the right map also holds (removing them there), then
append the right map's remaining additions. -/
def coalesceEntries : List (String × Value) → List (String × Value) → Order →
    List (String × Value)
  | [], b, _ => b
  | (k, va) :: rest, b, o =>
    match h : removeKey k b with
    | (some vb, b1) => (k, Value.coalesce va vb o) :: coalesceEntries rest b1 o
    | (none, b1) => (k, va) :: coalesceEntries rest b1 o
termination_by a b _ => sizeOf a + sizeOf b
decreasing_by
  · have h1 := removeKey_fst_sizeOf k b vb (by rw [h])
    simp only [List.cons.sizeOf_spec, Prod.mk.sizeOf_spec]
    omega
  · have h2 := removeKey_snd_sizeOf k b
    rw [h] at h2
    simp only [List.cons.sizeOf_spec] at h2 ⊢
    omega
  · have h2 := removeKey_snd_sizeOf k b
    rw [h] at h2
    simp only [List.cons.sizeOf_spec] at h2 ⊢
    omega

end

/-- First-match lookup in a dictionary's entries (`BTreeMap::get`). -/
def lookupEntry (k : String) : List (String × Value) → Option Value
  | [] => none
  | (k1, v) :: rest => if k1 = k then some v else lookupEntry k rest

/-- A `Figment` is the merged configuration accumulated so far; the claims
only need it as the value that sources fold over. -/
abbrev Figment := Value

/-- `Figment::new()`. -/
def emptyFigment : Figment := .dict 0 []

/-- `DataSourceError` of `src/datasource/mod.rs`: each source classifies
its own failure as recoverable or fatal. -/
inductive DataSourceError where
  | recoverable (e : Error)
  | fatal (e : Error)
deriving DecidableEq, Repr

namespace DataSourceError

/-- `DataSourceError::is_recoverable`. -/
def is_recoverable : DataSourceError → Bool
  | .recoverable _ => true
  | .fatal _ => false

/-- `DataSourceError::is_fatal`. -/
def is_fatal : DataSourceError → Bool
  | .recoverable _ => false
  | .fatal _ => true

/-- `From<DataSourceError> for Error`: strip the classification. -/
def toError : DataSourceError → Error
  | .recoverable e => e
  | .fatal e => e

end DataSourceError

/-- The observable behaviour of one `Source`'s `merge_to_figment`: given
the figment accumulated so far, produce the merged figment or fail. -/
abbrev SourceFn := Figment → Except DataSourceError Figment

/-- The loop body of `SourceRegistry::as_figment`: fold the sources in
registration order over the figment; a recoverable failure logs one
warning (counted here) and skips that layer, a fatal failure aborts
immediately with the stripped error. -/
def asFigmentLayers : List SourceFn → Figment → Nat × Except Error Figment
  | [], f => (0, .ok f)
  | s :: rest, f =>
    match s f with
    | .error e =>
      if e.is_recoverable then
        ((asFigmentLayers rest f).1 + 1, (asFigmentLayers rest f).2)
      else (0, .error e.toError)
    | .ok f1 => asFigmentLayers rest f1

/-- `SourceRegistry` of `src/datasource/mod.rs`: the ordered sources plus
the single-slot watch channel.  Only the receiver's presence matters to
the claims: `new` stores it and `watch` takes it. -/
structure SourceRegistry where
  sources : List SourceFn
  watch_rx : Option Unit

/-- `SourceRegistry::new`: collect the sources and create the capacity-one
channel, holding on to its receiver. -/
def SourceRegistry.new (sources : List SourceFn) : SourceRegistry :=
  { sources := sources, watch_rx := some () }

/-- `SourceRegistry::as_figment`, starting from `Figment::new()`.  Returns
the number of warnings logged together with the result. -/
def SourceRegistry.as_figment (r : SourceRegistry) : Nat × Except Error Figment :=
  asFigmentLayers r.sources emptyFigment

/-- Outcome of entering `SourceRegistry::watch`: either the receiver was
taken and the watch loop starts, or the registry was already being
watched and the call panics. -/
inductive WatchBegin where
  | started (r : SourceRegistry)
  | panicked

/-- The entry of `SourceRegistry::watch`: `self.watch_rx.take()` — the
first call takes the receiver and proceeds to register the per-source
watchers and run the loop; any later call finds `None` and panics. -/
def SourceRegistry.watchBegin (r : SourceRegistry) : WatchBegin :=
  match r.watch_rx with
  | some _ => .started { r with watch_rx := none }
  | none => .panicked

/-- State of the watch machinery: the single-slot tokio channel created by
`mpsc::channel(1)`, the sources still wanting to notify, senders blocked
in `blocking_send`/`send().await`, whether the loop is inside the
`onChange` callback, and how many reconciliations have started. -/
structure WatchState where
  slot : Nat
  blocked : Nat
  pending : Nat
  inCallback : Bool
  reconciliations : Nat
deriving DecidableEq, Repr

/-- Small-step semantics of the watch loop of `SourceRegistry::watch`
together with the notifying sources.  `send` succeeds only while the
channel has free capacity (one slot); otherwise the sender blocks and is
`unblock`ed once the loop drains the slot.  `recv` is only possible while
the loop is not inside the callback, and `finish` returns from the
callback. -/
inductive WatchStep : WatchState → WatchState → Prop where
  | send (s : WatchState) (h1 : 0 < s.pending) (h2 : s.slot < 1) :
      WatchStep s { s with pending := s.pending - 1, slot := s.slot + 1 }
  | sendBlocks (s : WatchState) (h1 : 0 < s.pending) (h2 : ¬ s.slot < 1) :
      WatchStep s { s with pending := s.pending - 1, blocked := s.blocked + 1 }
  | unblock (s : WatchState) (h1 : 0 < s.blocked) (h2 : s.slot < 1) :
      WatchStep s { s with blocked := s.blocked - 1, slot := s.slot + 1 }
  | recv (s : WatchState) (h1 : s.inCallback = false) (h2 : 0 < s.slot) :
      WatchStep s { s with slot := s.slot - 1, inCallback := true,
                           reconciliations := s.reconciliations + 1 }
  | finish (s : WatchState) (h : s.inCallback = true) :
      WatchStep s { s with inCallback := false }

/-- Reachability in the watch-loop semantics. -/
def WatchReaches : WatchState → WatchState → Prop :=
  Relation.ReflTransGen WatchStep
/-! Helper lemmas shared by the claim theorems. -/

theorem fsLookup_fsWrite_self (fs : FileSys) (p : PathC) (c : String) (t : Nat) :
    fsLookup (fsWrite fs p c t) p = some ⟨c, t⟩ := by
  induction fs with
  | nil => simp [fsWrite, fsLookup]
  | cons hd rest ih =>
    obtain ⟨q, fd⟩ := hd
    by_cases hq : q = p <;> simp [fsWrite, fsLookup, hq, ih]

theorem fsLookup_fsWrite_ne (fs : FileSys) (p q : PathC) (c : String) (t : Nat)
    (h : q ≠ p) : fsLookup (fsWrite fs p c t) q = fsLookup fs q := by
  induction fs with
  | nil =>
    have h1 : ¬ p = q := fun hc => h hc.symm
    simp [fsWrite, fsLookup, h1]
  | cons hd rest ih =>
    obtain ⟨q1, fd⟩ := hd
    have hp : ¬ p = q := fun hc => h hc.symm
    by_cases h1 : q1 = p
    · have h2 : ¬ q1 = q := fun hc => h (hc.symm.trans h1)
      simp [fsWrite, fsLookup, h1, h2, hp]
    · by_cases h2 : q1 = q
      · simp [fsWrite, fsLookup, h1, h2, h, hp]
      · simp [fsWrite, fsLookup, h1, h2, ih]

theorem removeKey_fst_eq_lookup (k : String) (l : List (String × Value)) :
    (removeKey k l).1 = lookupEntry k l := by
  induction l with
  | nil => rfl
  | cons hd t ih =>
    obtain ⟨k1, v⟩ := hd
    by_cases hk : k1 = k <;> simp [removeKey, lookupEntry, hk, ih]

theorem lookupEntry_removeKey_ne (k k0 : String) (l : List (String × Value))
    (hne : k0 ≠ k) : lookupEntry k0 (removeKey k l).2 = lookupEntry k0 l := by
  induction l with
  | nil => rfl
  | cons hd t ih =>
    obtain ⟨k1, v⟩ := hd
    have h2 : ¬ k = k0 := fun hc => hne hc.symm
    by_cases hk : k1 = k
    · have h1 : ¬ k1 = k0 := fun hc => hne (hc.symm.trans hk)
      simp [removeKey, lookupEntry, hk, h1, h2]
    · by_cases hk0 : k1 = k0
      · simp [removeKey, lookupEntry, hk, hk0, hne]
      · simp [removeKey, lookupEntry, hk, hk0, ih]

theorem removeKey_none_snd (k : String) (l : List (String × Value))
    (h : (removeKey k l).1 = none) : (removeKey k l).2 = l := by
  induction l with
  | nil => rfl
  | cons hd t ih =>
    obtain ⟨k1, v⟩ := hd
    by_cases hk : k1 = k
    · simp [removeKey, hk] at h
    · simp [removeKey, hk] at h ⊢
      exact ih h

theorem coalesceEntries_cons_some (k1 : String) (va : Value)
    (rest b : List (String × Value)) (o : Order) (vb : Value)
    (b1 : List (String × Value)) (h : removeKey k1 b = (some vb, b1)) :
    coalesceEntries ((k1, va) :: rest) b o =
      (k1, va.coalesce vb o) :: coalesceEntries rest b1 o := by
  rw [coalesceEntries.eq_def]
  split
  · simp_all
  · split <;> simp_all

theorem coalesceEntries_cons_none (k1 : String) (va : Value)
    (rest b : List (String × Value)) (o : Order)
    (b1 : List (String × Value)) (h : removeKey k1 b = (none, b1)) :
    coalesceEntries ((k1, va) :: rest) b o =
      (k1, va) :: coalesceEntries rest b1 o := by
  rw [coalesceEntries.eq_def]
  split
  · simp_all
  · split <;> simp_all

theorem lookupEntry_coalesceEntries (a b : List (String × Value)) (o : Order)
    (k : String) :
    lookupEntry k (coalesceEntries a b o) =
      match lookupEntry k a, lookupEntry k b with
      | some va, some vb => some (va.coalesce vb o)
      | some va, none => some va
      | none, r => r := by
  induction a generalizing b with
  | nil =>
    simp [coalesceEntries, lookupEntry]
  | cons hd rest ih =>
    obtain ⟨k1, va⟩ := hd
    rcases hrk : removeKey k1 b with ⟨ovb, b1⟩
    cases ovb with
    | some vb =>
      rw [coalesceEntries_cons_some k1 va rest b o vb b1 hrk]
      have hlb : lookupEntry k1 b = some vb := by
        rw [← removeKey_fst_eq_lookup, hrk]
      by_cases hk : k1 = k
      · subst hk
        simp [lookupEntry, hlb]
      · have hb1 : lookupEntry k b1 = lookupEntry k b := by
          have hx := lookupEntry_removeKey_ne k1 k b (fun hc => hk hc.symm)
          rw [hrk] at hx
          exact hx
        simp only [lookupEntry, if_neg hk, ih b1, hb1]
    | none =>
      have hb1 : b1 = b := by
        have hx := removeKey_none_snd k1 b (by rw [hrk])
        rw [hrk] at hx
        exact hx
      subst hb1
      rw [coalesceEntries_cons_none k1 va rest b1 o b1 hrk]
      have hlb : lookupEntry k1 b1 = none := by
        rw [← removeKey_fst_eq_lookup, hrk]
      by_cases hk : k1 = k
      · subst hk
        simp [lookupEntry, hlb]
      · simp only [lookupEntry, if_neg hk, ih b1]

/-- Whether a `Value` is a `Dict` (a tree node). -/
def Value.isDict : Value → Bool
  | .dict _ _ => true
  | _ => false

/-- C3: merging configuration layer B onto layer A (figment `Order::Merge`,
as used by `SourceRegistry::as_figment` and the vendored `coalesce`
module) is right-biased and structural: tree/tree merges recurse, with B
winning on common keys and A's unique keys preserved; any other shape
pair — arrays included — is replaced wholesale by B's value, and
sequences are never concatenated. -/
theorem merge_right_biased_structural :
    (∀ (ta tb : Nat) (a b : List (String × Value)),
        (Value.dict ta a).coalesce (Value.dict tb b) .merge =
          Value.dict tb (coalesceEntries a b .merge))
    ∧ (∀ (k : String) (a b : List (String × Value)),
        lookupEntry k (coalesceEntries a b .merge) =
          match lookupEntry k a, lookupEntry k b with
          | some va, some vb => some (va.coalesce vb .merge)
          | some va, none => some va
          | none, r => r)
    ∧ (∀ (ta tb : Nat) (xs ys : List Value),
        (Value.arr ta xs).coalesce (Value.arr tb ys) .merge = Value.arr tb ys)
    ∧ (∀ v w : Value, v.isDict = false ∨ w.isDict = false →
        v.coalesce w .merge = w) := by
  refine ⟨?_, ?_, ?_, ?_⟩
  · intro ta tb a b
    rw [Value.coalesce.eq_def]
  · intro k a b
    exact lookupEntry_coalesceEntries a b .merge k
  · intro ta tb xs ys
    rw [Value.coalesce.eq_def]
  · intro v w h
    cases w with
    | dict tw ew =>
      cases v with
      | dict tv ev => simp [Value.isDict] at h
      | str t s => rw [Value.coalesce.eq_def]
      | num t n => rw [Value.coalesce.eq_def]
      | boolV t b => rw [Value.coalesce.eq_def]
      | emptyV t => rw [Value.coalesce.eq_def]
      | arr t xs => rw [Value.coalesce.eq_def]
    | str tw s => cases v <;> rw [Value.coalesce.eq_def]
    | num tw n => cases v <;> rw [Value.coalesce.eq_def]
    | boolV tw b => cases v <;> rw [Value.coalesce.eq_def]
    | emptyV tw => cases v <;> rw [Value.coalesce.eq_def]
    | arr tw xs => cases v <;> rw [Value.coalesce.eq_def]

/-- Witness for C3 at concrete values: `[1, 2]` merged with `[3]` is `[3]`
(sequences replace, never concatenate). -/
theorem merge_right_biased_structural_witness :
    (Value.arr 0 [Value.num 0 1, Value.num 0 2]).coalesce
        (Value.arr 1 [Value.num 0 3]) .merge = Value.arr 1 [Value.num 0 3] :=
  merge_right_biased_structural.2.2.2 _ _ (Or.inl rfl)

/-- C5: `as_figment` folds the sources in registration order; a source
failing recoverably is logged as a warning (counted here) and its layer
skipped, assembly continuing on the unchanged figment; a source failing
fatally aborts the assembly immediately, propagating the stripped error;
a successful source passes its merged figment on to the remaining fold. -/
theorem as_figment_failure_policy :
    (∀ (s : SourceFn) (rest : List SourceFn) (f : Figment) (e : DataSourceError),
        s f = .error e → e.is_recoverable = true →
        asFigmentLayers (s :: rest) f =
          ((asFigmentLayers rest f).1 + 1, (asFigmentLayers rest f).2))
    ∧ (∀ (s : SourceFn) (rest : List SourceFn) (f : Figment) (e : DataSourceError),
        s f = .error e → e.is_recoverable = false →
        asFigmentLayers (s :: rest) f = (0, .error e.toError))
    ∧ (∀ (s : SourceFn) (rest : List SourceFn) (f f1 : Figment),
        s f = .ok f1 →
        asFigmentLayers (s :: rest) f = asFigmentLayers rest f1) := by
  refine ⟨?_, ?_, ?_⟩
  · intro s rest f e hs hrec
    simp [asFigmentLayers, hs, hrec]
  · intro s rest f e hs hrec
    simp [asFigmentLayers, hs, hrec]
  · intro s rest f f1 hs
    simp [asFigmentLayers, hs]

/-- Witness for C5 at concrete one-source registries: a recoverable
failure warns once and keeps the empty figment, a fatal failure aborts
with the stripped error, a success folds on. -/
theorem as_figment_failure_policy_witness :
    asFigmentLayers [fun _ => .error (.recoverable .figmentError)] emptyFigment
        = (1, .ok emptyFigment)
    ∧ asFigmentLayers [fun _ => .error (.fatal .figmentError)] emptyFigment
        = (0, .error .figmentError)
    ∧ asFigmentLayers [fun f => .ok f] emptyFigment = (0, .ok emptyFigment) := by
  refine ⟨?_, ?_, ?_⟩
  · exact (as_figment_failure_policy.1 (fun _ => .error (.recoverable .figmentError))
      [] emptyFigment (.recoverable .figmentError) rfl rfl).trans rfl
  · exact (as_figment_failure_policy.2.1 (fun _ => .error (.fatal .figmentError))
      [] emptyFigment (.fatal .figmentError) rfl rfl).trans rfl
  · exact (as_figment_failure_policy.2.2 (fun f => .ok f)
      [] emptyFigment emptyFigment rfl).trans rfl

/-- C9: watching may start at most once per registry: on a fresh registry
`watch` takes the channel receiver and proceeds; the registry it leaves
behind holds no receiver, so a second call panics instead of registering
the watchers again. -/
theorem watch_at_most_once (sources : List SourceFn) :
    (SourceRegistry.new sources).watchBegin =
        .started { sources := sources, watch_rx := none }
    ∧ SourceRegistry.watchBegin { sources := sources, watch_rx := none } =
        .panicked :=
  ⟨rfl, rfl⟩

/-- C6 is false as stated: the channel has capacity one and the loop is
serialized, but senders block rather than drop, so three notifications
issued while a reconciliation is in flight (state ⟨slot 0, blocked 0,
pending 3, in callback, 1 reconciliation⟩) can drive the count to 4 —
one additional reconciliation per notification, not at most one. -/
theorem watch_debounce_counterexample :
    ¬ (∀ s1 : WatchState, WatchReaches ⟨0, 0, 3, true, 1⟩ s1 →
        s1.reconciliations ≤ 2) := by
  intro hcl
  have t1 : WatchReaches ⟨0, 0, 3, true, 1⟩ ⟨1, 0, 2, true, 1⟩ :=
    Relation.ReflTransGen.single (WatchStep.send _ (by decide) (by decide))
  have t2 : WatchReaches ⟨0, 0, 3, true, 1⟩ ⟨1, 1, 1, true, 1⟩ :=
    t1.tail (WatchStep.sendBlocks _ (by decide) (by decide))
  have t3 : WatchReaches ⟨0, 0, 3, true, 1⟩ ⟨1, 2, 0, true, 1⟩ :=
    t2.tail (WatchStep.sendBlocks _ (by decide) (by decide))
  have t4 : WatchReaches ⟨0, 0, 3, true, 1⟩ ⟨1, 2, 0, false, 1⟩ :=
    t3.tail (WatchStep.finish _ rfl)
  have t5 : WatchReaches ⟨0, 0, 3, true, 1⟩ ⟨0, 2, 0, true, 2⟩ :=
    t4.tail (WatchStep.recv _ rfl (by decide))
  have t6 : WatchReaches ⟨0, 0, 3, true, 1⟩ ⟨1, 1, 0, true, 2⟩ :=
    t5.tail (WatchStep.unblock _ (by decide) (by decide))
  have t7 : WatchReaches ⟨0, 0, 3, true, 1⟩ ⟨1, 1, 0, false, 2⟩ :=
    t6.tail (WatchStep.finish _ rfl)
  have t8 : WatchReaches ⟨0, 0, 3, true, 1⟩ ⟨0, 1, 0, true, 3⟩ :=
    t7.tail (WatchStep.recv _ rfl (by decide))
  have t9 : WatchReaches ⟨0, 0, 3, true, 1⟩ ⟨1, 0, 0, true, 3⟩ :=
    t8.tail (WatchStep.unblock _ (by decide) (by decide))
  have t10 : WatchReaches ⟨0, 0, 3, true, 1⟩ ⟨1, 0, 0, false, 3⟩ :=
    t9.tail (WatchStep.finish _ rfl)
  have t11 : WatchReaches ⟨0, 0, 3, true, 1⟩ ⟨0, 0, 0, true, 4⟩ :=
    t10.tail (WatchStep.recv _ rfl (by decide))
  exact absurd (hcl _ t11) (by decide)

/-- C6 (amended): the notification channel holds at most one pending
notification at any time, and no reconciliation starts while the
callback for the previous one is still running; but a burst of
notifications is serialized, not collapsed — the reconciliation count is
bounded by the conserved total of notifications still pending, blocked,
or buffered (one additional reconciliation per notification), not by
one. -/
theorem watch_channel_backpressure :
    (∀ s1 s2 : WatchState, WatchReaches s1 s2 → s1.slot ≤ 1 → s2.slot ≤ 1)
    ∧ (∀ s1 s2 : WatchState, WatchStep s1 s2 → s1.inCallback = true →
        s2.reconciliations = s1.reconciliations)
    ∧ (∀ s1 s2 : WatchState, WatchReaches s1 s2 →
        s2.reconciliations + s2.pending + s2.blocked + s2.slot =
          s1.reconciliations + s1.pending + s1.blocked + s1.slot) := by
  refine ⟨?_, ?_, ?_⟩
  · intro s1 s2 hr hle
    induction hr with
    | refl => exact hle
    | tail hab hbc ih => cases hbc <;> simp_all <;> omega
  · intro s1 s2 hstep hcb
    cases hstep <;> simp_all
  · intro s1 s2 hr
    induction hr with
    | refl => rfl
    | tail hab hbc ih => cases hbc <;> simp_all <;> omega

/-- Witness for the amended C6 theorem at a concrete step: finishing the
callback starts no reconciliation and keeps the slot within capacity. -/
theorem watch_channel_backpressure_witness :
    ((⟨0, 0, 0, false, 5⟩ : WatchState).reconciliations =
        (⟨0, 0, 0, true, 5⟩ : WatchState).reconciliations)
    ∧ (⟨0, 0, 0, false, 5⟩ : WatchState).slot ≤ 1 := by
  have hstep : WatchStep ⟨0, 0, 0, true, 5⟩ ⟨0, 0, 0, false, 5⟩ :=
    WatchStep.finish _ rfl
  refine ⟨watch_channel_backpressure.2.1 _ _ hstep rfl, ?_⟩
  exact watch_channel_backpressure.1 _ _ (Relation.ReflTransGen.single hstep)
    (by decide)

theorem render_error_is_template_error (env : Engine) (name : PathC) (ctx : Ctx)
    (e : Error) (h : env.render name ctx = .error e) : e = .templateError := by
  unfold Engine.render at h
  rcases h2 : tplLookup env.templates name with - | tpl
  · rw [h2] at h
    injection h with h4
    exact h4.symm
  · rw [h2] at h
    rcases h3 : env.renderFn name ctx with e1 | s1
    · rw [h3] at h
      injection h with h4
      exact h4.symm
    · rw [h3] at h
      simp at h

/-- C1 is false as stated: a dry-run apply whose rendered text ("new")
differs from the destination's current content ("old") still reports
`.ok false`; the identical apply with dry run off reports `.ok true`, so
the destination would change but the dry run does not report it. -/
theorem apply_dry_run_counterexample :
    (TemplateOperation.apply
        ⟨.fileSystem ["tpl"], .fileSystem ["out"], none⟩
        ⟨[], fun _ => true, fun _ _ => .ok "new"⟩ [] true false
        ⟨[(["tpl"], ⟨"new", 0⟩), (["out"], ⟨"old", 0⟩)], "", "", ""⟩ 7).2.2.2
      = .ok false
    ∧ (TemplateOperation.apply
        ⟨.fileSystem ["tpl"], .fileSystem ["out"], none⟩
        ⟨[], fun _ => true, fun _ _ => .ok "new"⟩ [] false false
        ⟨[(["tpl"], ⟨"new", 0⟩), (["out"], ⟨"old", 0⟩)], "", "", ""⟩ 7).2.2.2
      = .ok true :=
  ⟨rfl, rfl⟩

/-- C1 (amended): with `dryRun = true`, `apply` performs no backup and no
write — the world is returned untouched — and never reports a change
(the result is `.ok false` or an error, never `.ok true`); rendering
still happens, so a render failure surfaces as a template error; but the
result does not say whether the destination would change. -/
theorem apply_dry_run_no_effects (op : TemplateOperation) (env : Engine)
    (ctx : Ctx) (ld : Bool) (w : World) (now : Nat) :
    (TemplateOperation.apply op env ctx true ld w now).2.2.1 = w
    ∧ ((TemplateOperation.apply op env ctx true ld w now).2.2.2 = .ok false
        ∨ ∃ e, (TemplateOperation.apply op env ctx true ld w now).2.2.2 = .error e)
    ∧ (∀ src1 env1,
        TemplateSource.ensure_cached op.source env w = (src1, env1, .ok ()) →
        env1.render src1.get_cached_name ctx = .error .templateError →
        (TemplateOperation.apply op env ctx true ld w now).2.2.2 =
          .error .templateError) := by
  rcases hec : TemplateSource.ensure_cached op.source env w with ⟨src1, env1, res⟩
  cases res with
  | error e =>
    refine ⟨?_, .inr ⟨e, ?_⟩, ?_⟩
    · simp [TemplateOperation.apply, hec]
    · simp [TemplateOperation.apply, hec]
    · intro src2 env2 hec2 hr2
      simp at hec2
  | ok u =>
    cases u
    cases hr : env1.render src1.get_cached_name ctx with
    | error e2 =>
      have he2 : e2 = Error.templateError :=
        render_error_is_template_error env1 src1.get_cached_name ctx e2 hr
      subst he2
      refine ⟨?_, .inr ⟨Error.templateError, ?_⟩, ?_⟩
      · simp [TemplateOperation.apply, hec, hr]
      · simp [TemplateOperation.apply, hec, hr]
      · intro src2 env2 hec2 hr2
        simp [TemplateOperation.apply, hec, hr]
    | ok rendered =>
      refine ⟨?_, .inl ?_, ?_⟩
      · simp [TemplateOperation.apply, hec, hr]
      · simp [TemplateOperation.apply, hec, hr]
      · intro src2 env2 hec2 hr2
        simp [Prod.mk.injEq] at hec2
        obtain ⟨h1, h2⟩ := hec2
        subst h1
        subst h2
        rw [hr] at hr2
        exact absurd hr2 (by simp)

/-- Witness for the amended C1 theorem: a failing render surfaces its
template error in dry-run mode, and the world comes back untouched. -/
theorem apply_dry_run_no_effects_witness :
    (TemplateOperation.apply ⟨.fileSystem ["t"], .stdOut, none⟩
        ⟨[], fun _ => true, fun _ _ => .error ()⟩ [] true false
        ⟨[(["t"], ⟨"x", 0⟩)], "", "", ""⟩ 0).2.2.2 = .error .templateError
    ∧ (TemplateOperation.apply ⟨.fileSystem ["t"], .stdOut, none⟩
        ⟨[], fun _ => true, fun _ _ => .error ()⟩ [] true false
        ⟨[(["t"], ⟨"x", 0⟩)], "", "", ""⟩ 0).2.2.1 =
        ⟨[(["t"], ⟨"x", 0⟩)], "", "", ""⟩ := by
  refine ⟨?_, ?_⟩
  · exact (apply_dry_run_no_effects _ _ _ _ _ _).2.2
      (.cached ["t"] false)
      ⟨[(["t"], "x")], fun _ => true, fun _ _ => .error ()⟩ rfl rfl
  · exact (apply_dry_run_no_effects _ _ _ _ _ _).1

/-- C2: a `FileSystem` destination write reads the existing content and
compares it byte for byte to the rendered text — identical content
writes nothing, reports no change, and leaves the world (including the
mtime) untouched; different content truncates and rewrites the file with
the new mtime and reports a change.  A `StdOut` destination always
writes the full rendered text and always reports a change. -/
theorem write_templated_change_gated :
    (∀ (path : PathC) (fd : FileData) (templated : String) (ld : Bool)
        (w : World) (now : Nat),
        fsLookup w.fs path = some fd →
        (fd.content = templated →
          TemplateDestination.write_templated (.fileSystem path) templated ld w now
            = (w, .ok false))
        ∧ (fd.content ≠ templated →
            (TemplateDestination.write_templated (.fileSystem path) templated ld w now).2
              = .ok true
            ∧ fsLookup
                (TemplateDestination.write_templated
                  (.fileSystem path) templated ld w now).1.fs
                path = some ⟨templated, now⟩))
    ∧ (∀ (templated : String) (ld : Bool) (w : World) (now : Nat),
        TemplateDestination.write_templated .stdOut templated ld w now =
          ({ w with stdout := w.stdout ++ templated }, .ok true)) := by
  constructor
  · intro path fd templated ld w now hlk
    constructor
    · intro heq
      simp [TemplateDestination.write_templated, hlk, heq]
    · intro hne
      cases ld <;>
        simp [TemplateDestination.write_templated, hlk, hne, fsLookup_fsWrite_self]
  · intro templated ld w now
    rfl

/-- Witness for C2 at concrete worlds: identical content is a no-op
reporting false, differing content rewrites with the new mtime and
reports true, stdout always writes and reports true. -/
theorem write_templated_change_gated_witness :
    TemplateDestination.write_templated (.fileSystem ["f"]) "same" true
        ⟨[(["f"], ⟨"same", 3⟩)], "", "", ""⟩ 9
      = (⟨[(["f"], ⟨"same", 3⟩)], "", "", ""⟩, .ok false)
    ∧ (TemplateDestination.write_templated (.fileSystem ["f"]) "pro" false
        ⟨[(["f"], ⟨"old", 3⟩)], "", "", ""⟩ 9).2 = .ok true
    ∧ fsLookup (TemplateDestination.write_templated (.fileSystem ["f"]) "pro" false
        ⟨[(["f"], ⟨"old", 3⟩)], "", "", ""⟩ 9).1.fs ["f"] = some ⟨"pro", 9⟩
    ∧ TemplateDestination.write_templated .stdOut "out" false ⟨[], "", "x", ""⟩ 0
        = (⟨[], "", "xout", ""⟩, .ok true) := by
  refine ⟨?_, ?_, ?_, ?_⟩
  · exact (write_templated_change_gated.1 ["f"] ⟨"same", 3⟩ "same" true
      ⟨[(["f"], ⟨"same", 3⟩)], "", "", ""⟩ 9 rfl).1 rfl
  · exact ((write_templated_change_gated.1 ["f"] ⟨"old", 3⟩ "pro" false
      ⟨[(["f"], ⟨"old", 3⟩)], "", "", ""⟩ 9 rfl).2 (by decide)).1
  · exact ((write_templated_change_gated.1 ["f"] ⟨"old", 3⟩ "pro" false
      ⟨[(["f"], ⟨"old", 3⟩)], "", "", ""⟩ 9 rfl).2 (by decide)).2
  · exact (write_templated_change_gated.2 "out" false ⟨[], "", "x", ""⟩ 0).trans rfl

/-- C7: the trailing-newline flag is recorded once at compile time —
`ensure_cached` on a file source stores whether the raw text's last
character is a newline, and on an already-cached source it is a no-op so
the flag is reused — and `apply` appends exactly one newline to the
rendered output when the flag is set and none otherwise. -/
theorem trailing_newline_preserved :
    (∀ (p : PathC) (fd : FileData) (env : Engine) (w : World),
        fsLookup w.fs p = some fd → env.compilesOk fd.content = true →
        TemplateSource.ensure_cached (.fileSystem p) env w =
          (.cached p (TemplateSource.endsInNewline fd.content),
           { env with templates := tplAdd env.templates p fd.content }, .ok ())
        ∧ (TemplateSource.endsInNewline fd.content = true ↔
            fd.content.data.getLast? = some '\n'))
    ∧ (∀ (n : PathC) (f : Bool) (env : Engine) (w : World),
        TemplateSource.ensure_cached (.cached n f) env w = (.cached n f, env, .ok ()))
    ∧ (∀ (n : PathC) (f : Bool) (env : Engine) (ctx : Ctx) (ld : Bool) (w : World)
          (now : Nat) (rendered : String),
        env.render n ctx = .ok rendered →
        TemplateOperation.apply ⟨.cached n f, .stdOut, none⟩ env ctx false ld w now =
          (⟨.cached n f, .stdOut, none⟩, env,
           { w with stdout := w.stdout ++ (if f then rendered ++ "\n" else rendered) },
           .ok true)) := by
  refine ⟨?_, ?_, ?_⟩
  · intro p fd env w hlk hco
    refine ⟨by simp [TemplateSource.ensure_cached, hlk, hco], ?_⟩
    cases h : fd.content.data.getLast? with
    | none => simp [TemplateSource.endsInNewline, h]
    | some c => simp [TemplateSource.endsInNewline, h]
  · intro n f env w
    rfl
  · intro n f env ctx ld w now rendered hr
    cases f <;>
      simp [TemplateOperation.apply, TemplateSource.ensure_cached,
        TemplateSource.get_cached_name,
        TemplateSource.get_cached_contains_trailing_newline, hr,
        TemplateOperation.do_backup, TemplateDestination.write_templated]

/-- Witness for C7: compiling a source ending in a newline records the
flag, and a later apply re-appends exactly that newline to the render. -/
theorem trailing_newline_preserved_witness :
    TemplateSource.ensure_cached (.fileSystem ["t"])
        ⟨[], fun _ => true, fun _ _ => .ok "R"⟩
        ⟨[(["t"], ⟨"body\n", 0⟩)], "", "", ""⟩ =
      (.cached ["t"] true,
       ⟨[(["t"], "body\n")], fun _ => true, fun _ _ => .ok "R"⟩, .ok ())
    ∧ (TemplateOperation.apply ⟨.cached ["t"] true, .stdOut, none⟩
          ⟨[(["t"], "body\n")], fun _ => true, fun _ _ => .ok "R"⟩ [] false false
          ⟨[], "", "", ""⟩ 0).2.2.1.stdout = "R\n" := by
  constructor
  · exact ((trailing_newline_preserved.1 ["t"] ⟨"body\n", 0⟩
      ⟨[], fun _ => true, fun _ _ => .ok "R"⟩ ⟨[(["t"], ⟨"body\n", 0⟩)], "", "", ""⟩
      rfl rfl).1).trans rfl
  · rw [trailing_newline_preserved.2.2 ["t"] true
      ⟨[(["t"], "body\n")], fun _ => true, fun _ _ => .ok "R"⟩ [] false
      ⟨[], "", "", ""⟩ 0 "R" rfl]
    rfl

theorem do_backup_collision (sp : PathC) (f : Bool) (dest : TemplateDestination)
    (ext : String) (w : World) (now : Nat) (src bak : FileData) (bp : PathC)
    (hbp : backupPathOf sp ext = some bp)
    (hs : fsLookup w.fs sp = some src)
    (hb : fsLookup w.fs bp = some bak)
    (hne : src.content ≠ bak.content) :
    TemplateOperation.do_backup ⟨.cached sp f, dest, some ext⟩ w now =
      (⟨.cached sp f, dest, none⟩, w, .error (.backupWouldBeOverwritten bp)) := by
  simp [TemplateOperation.do_backup, TemplateSource.path?, hbp, hs, hb, hne]

theorem do_backup_copies (sp : PathC) (f : Bool) (dest : TemplateDestination)
    (ext : String) (w : World) (now : Nat) (src : FileData) (bp : PathC)
    (hbp : backupPathOf sp ext = some bp)
    (hs : fsLookup w.fs sp = some src)
    (hok : fsLookup w.fs bp = none ∨
      ∃ bak, fsLookup w.fs bp = some bak ∧ src.content = bak.content) :
    TemplateOperation.do_backup ⟨.cached sp f, dest, some ext⟩ w now =
      (⟨.cached sp f, dest, none⟩,
       { w with fs := fsWrite w.fs bp src.content now }, .ok ()) := by
  rcases hok with hnone | ⟨bak, hb, heq⟩
  · simp [TemplateOperation.do_backup, TemplateSource.path?, hbp, hs, hnone]
  · simp [TemplateOperation.do_backup, TemplateSource.path?, hbp, hs, hb, heq]

theorem do_backup_skip (src : TemplateSource) (dest : TemplateDestination)
    (w : World) (now : Nat) :
    TemplateOperation.do_backup ⟨src, dest, none⟩ w now =
      (⟨src, dest, none⟩, w, .ok ()) := rfl

theorem apply_cached_step (sp : PathC) (f : Bool) (dest : TemplateDestination)
    (bk : Option String) (env : Engine) (ctx : Ctx) (ld : Bool) (w : World)
    (now : Nat) (rendered : String)
    (hr : env.render sp ctx = .ok rendered) :
    TemplateOperation.apply ⟨.cached sp f, dest, bk⟩ env ctx false ld w now =
      (match TemplateOperation.do_backup ⟨.cached sp f, dest, bk⟩ w now with
       | (op2, w1, .error e) => (op2, env, w1, .error e)
       | (op2, w1, .ok ()) =>
         match op2.dest.write_templated
             (if f then rendered ++ "\n" else rendered) ld w1 now with
         | (w2, .error e) => (op2, env, w2, .error e)
         | (w2, .ok changed) => (op2, env, w2, .ok changed)) := by
  simp [TemplateOperation.apply, TemplateSource.ensure_cached,
    TemplateSource.get_cached_name,
    TemplateSource.get_cached_contains_trailing_newline, hr]

theorem write_templated_is_ok (dest : TemplateDestination) (t : String) (ld : Bool)
    (w : World) (now : Nat) :
    ∃ b w2, dest.write_templated t ld w now = (w2, .ok b) := by
  cases dest with
  | stdOut => exact ⟨true, _, rfl⟩
  | fileSystem p =>
    unfold TemplateDestination.write_templated
    dsimp only
    split <;> (try dsimp only) <;> split <;> exact ⟨_, _, rfl⟩

theorem write_templated_preserves_other (dest : TemplateDestination) (t : String)
    (ld : Bool) (w : World) (now : Nat) (q : PathC)
    (h : dest ≠ .fileSystem q) :
    fsLookup (dest.write_templated t ld w now).1.fs q = fsLookup w.fs q := by
  cases dest with
  | stdOut => rfl
  | fileSystem p =>
    have hpq : q ≠ p := fun hc => h (by rw [hc])
    have hw : ∀ fs c ti, fsLookup (fsWrite fs p c ti) q = fsLookup fs q :=
      fun fs c ti => fsLookup_fsWrite_ne fs p q c ti hpq
    rcases hl : fsLookup w.fs p with - | fd
    · by_cases he : ("" : String) = t
      · simp [TemplateDestination.write_templated, hl, he, hw]
      · cases ld <;> simp [TemplateDestination.write_templated, hl, he, hw]
    · by_cases he : fd.content = t
      · simp [TemplateDestination.write_templated, hl, he]
      · cases ld <;> simp [TemplateDestination.write_templated, hl, he, hw]

/-- C4: with a configured backup extension and a file-backed source, when
the sibling backup file `<filename>.<extension>` exists with bytes
differing from the current source, `apply` fails with the
backup-collision error and leaves the world completely untouched — the
destination is not written and neither the source nor the existing
backup is modified; when the backup's bytes match, or no backup exists
yet, the current source content is copied to the backup path and the
operation proceeds without a collision error. -/
theorem backup_collision_aborts (sp : PathC) (f : Bool)
    (dest : TemplateDestination) (ext : String) (env : Engine) (ctx : Ctx)
    (ld : Bool) (w : World) (now : Nat) (src : FileData) (bp : PathC)
    (rendered : String)
    (hbp : backupPathOf sp ext = some bp)
    (hr : env.render sp ctx = .ok rendered)
    (hs : fsLookup w.fs sp = some src) :
    (∀ bak : FileData, fsLookup w.fs bp = some bak → src.content ≠ bak.content →
      TemplateOperation.apply ⟨.cached sp f, dest, some ext⟩ env ctx false ld w now =
        (⟨.cached sp f, dest, none⟩, env, w, .error (.backupWouldBeOverwritten bp)))
    ∧ (dest ≠ .fileSystem bp →
        (fsLookup w.fs bp = none ∨
          ∃ bak, fsLookup w.fs bp = some bak ∧ src.content = bak.content) →
        (∃ b, (TemplateOperation.apply ⟨.cached sp f, dest, some ext⟩
            env ctx false ld w now).2.2.2 = .ok b)
        ∧ fsLookup (TemplateOperation.apply ⟨.cached sp f, dest, some ext⟩
            env ctx false ld w now).2.2.1.fs bp = some ⟨src.content, now⟩) := by
  constructor
  · intro bak hb hne
    rw [apply_cached_step sp f dest (some ext) env ctx ld w now rendered hr]
    rw [do_backup_collision sp f dest ext w now src bak bp hbp hs hb hne]
  · intro hdb hok
    rw [apply_cached_step sp f dest (some ext) env ctx ld w now rendered hr,
        do_backup_copies sp f dest ext w now src bp hbp hs hok]
    obtain ⟨b, w2, hwrt⟩ := write_templated_is_ok dest
      (if f then rendered ++ "\n" else rendered) ld
      { w with fs := fsWrite w.fs bp src.content now } now
    have hpre := write_templated_preserves_other dest
      (if f then rendered ++ "\n" else rendered) ld
      { w with fs := fsWrite w.fs bp src.content now } now bp hdb
    rw [hwrt] at hpre
    dsimp only at hpre
    dsimp only
    rw [hwrt]
    refine ⟨⟨b, rfl⟩, ?_⟩
    dsimp only
    rw [hpre]
    exact fsLookup_fsWrite_self w.fs bp src.content now

/-- Witness for C4 at a concrete world: a differing `s.bak` aborts the
apply with the collision error and leaves everything untouched, while a
missing backup gets the current source content copied in. -/
theorem backup_collision_aborts_witness :
    TemplateOperation.apply ⟨.cached ["s"] false, .fileSystem ["d"], some "bak"⟩
        ⟨[(["s"], "x")], fun _ => true, fun _ _ => .ok "new"⟩ [] false false
        ⟨[(["s"], ⟨"cur", 0⟩), (["s.bak"], ⟨"other", 0⟩), (["d"], ⟨"z", 0⟩)],
         "", "", ""⟩ 5 =
      (⟨.cached ["s"] false, .fileSystem ["d"], none⟩,
       ⟨[(["s"], "x")], fun _ => true, fun _ _ => .ok "new"⟩,
       ⟨[(["s"], ⟨"cur", 0⟩), (["s.bak"], ⟨"other", 0⟩), (["d"], ⟨"z", 0⟩)],
        "", "", ""⟩,
       .error (.backupWouldBeOverwritten ["s.bak"]))
    ∧ fsLookup (TemplateOperation.apply
        ⟨.cached ["s"] false, .fileSystem ["d"], some "bak"⟩
        ⟨[(["s"], "x")], fun _ => true, fun _ _ => .ok "new"⟩ [] false false
        ⟨[(["s"], ⟨"cur", 0⟩), (["d"], ⟨"z", 0⟩)], "", "", ""⟩ 5).2.2.1.fs
        ["s.bak"] = some ⟨"cur", 5⟩ := by
  constructor
  · exact (backup_collision_aborts ["s"] false (.fileSystem ["d"]) "bak"
      ⟨[(["s"], "x")], fun _ => true, fun _ _ => .ok "new"⟩ [] false
      ⟨[(["s"], ⟨"cur", 0⟩), (["s.bak"], ⟨"other", 0⟩), (["d"], ⟨"z", 0⟩)],
       "", "", ""⟩ 5
      ⟨"cur", 0⟩ ["s.bak"] "new" (by decide) rfl rfl).1 ⟨"other", 0⟩ rfl (by decide)
  · exact ((backup_collision_aborts ["s"] false (.fileSystem ["d"]) "bak"
      ⟨[(["s"], "x")], fun _ => true, fun _ _ => .ok "new"⟩ [] false
      ⟨[(["s"], ⟨"cur", 0⟩), (["d"], ⟨"z", 0⟩)], "", "", ""⟩ 5
      ⟨"cur", 0⟩ ["s.bak"] "new" (by decide) rfl rfl).2 (by decide) (.inl rfl)).2

/-- C10: the first non-dry-run apply consumes the configured backup
extension before the collision check runs — the returned operation has
`backup = none` even though the apply fails with the collision error —
so re-applying the returned operation performs no backup copy and no
collision check: the retry succeeds and overwrites the destination while
the still-differing backup file is left in place. -/
theorem backup_consumed_on_first_apply (sp : PathC) (f : Bool) (dp : PathC)
    (ext : String) (env : Engine) (ctx : Ctx) (ld : Bool) (w : World)
    (now now2 : Nat) (src bak dst : FileData) (bp : PathC) (rendered : String)
    (hbp : backupPathOf sp ext = some bp)
    (hr : env.render sp ctx = .ok rendered)
    (hs : fsLookup w.fs sp = some src)
    (hb : fsLookup w.fs bp = some bak)
    (hne : src.content ≠ bak.content)
    (hdp : fsLookup w.fs dp = some dst)
    (hdne : dst.content ≠ (if f then rendered ++ "\n" else rendered))
    (hdb : dp ≠ bp) :
    TemplateOperation.apply ⟨.cached sp f, .fileSystem dp, some ext⟩
        env ctx false ld w now =
      (⟨.cached sp f, .fileSystem dp, none⟩, env, w,
       .error (.backupWouldBeOverwritten bp))
    ∧ (TemplateOperation.apply ⟨.cached sp f, .fileSystem dp, none⟩
        env ctx false ld w now2).2.2.2 = .ok true
    ∧ fsLookup (TemplateOperation.apply ⟨.cached sp f, .fileSystem dp, none⟩
        env ctx false ld w now2).2.2.1.fs dp =
      some ⟨(if f then rendered ++ "\n" else rendered), now2⟩
    ∧ fsLookup (TemplateOperation.apply ⟨.cached sp f, .fileSystem dp, none⟩
        env ctx false ld w now2).2.2.1.fs bp = some bak := by
  have hbd : bp ≠ dp := fun hc => hdb hc.symm
  have hw : ∀ fs c ti, fsLookup (fsWrite fs dp c ti) bp = fsLookup fs bp :=
    fun fs c ti => fsLookup_fsWrite_ne fs dp bp c ti hbd
  refine ⟨?_, ?_, ?_, ?_⟩
  · rw [apply_cached_step sp f (.fileSystem dp) (some ext) env ctx ld w now
        rendered hr,
      do_backup_collision sp f (.fileSystem dp) ext w now src bak bp hbp hs hb hne]
  · rw [apply_cached_step sp f (.fileSystem dp) none env ctx ld w now2
        rendered hr, do_backup_skip]
    cases ld <;> simp [TemplateDestination.write_templated, hdp, hdne]
  · rw [apply_cached_step sp f (.fileSystem dp) none env ctx ld w now2
        rendered hr, do_backup_skip]
    cases ld <;>
      simp [TemplateDestination.write_templated, hdp, hdne, fsLookup_fsWrite_self]
  · rw [apply_cached_step sp f (.fileSystem dp) none env ctx ld w now2
        rendered hr, do_backup_skip]
    cases ld <;>
      simp [TemplateDestination.write_templated, hdp, hdne, hw, hb]

/-- Witness for C10 at a concrete world: the failing first apply returns
the operation with its backup extension consumed; re-applying that
operation succeeds, rewrites the destination, and leaves the differing
backup file as it was. -/
theorem backup_consumed_on_first_apply_witness :
    TemplateOperation.apply ⟨.cached ["s"] false, .fileSystem ["d"], some "bak"⟩
        ⟨[(["s"], "x")], fun _ => true, fun _ _ => .ok "new"⟩ [] false false
        ⟨[(["s"], ⟨"cur", 0⟩), (["s.bak"], ⟨"other", 0⟩), (["d"], ⟨"z", 0⟩)],
         "", "", ""⟩ 5 =
      (⟨.cached ["s"] false, .fileSystem ["d"], none⟩,
       ⟨[(["s"], "x")], fun _ => true, fun _ _ => .ok "new"⟩,
       ⟨[(["s"], ⟨"cur", 0⟩), (["s.bak"], ⟨"other", 0⟩), (["d"], ⟨"z", 0⟩)],
        "", "", ""⟩,
       .error (.backupWouldBeOverwritten ["s.bak"]))
    ∧ (TemplateOperation.apply ⟨.cached ["s"] false, .fileSystem ["d"], none⟩
        ⟨[(["s"], "x")], fun _ => true, fun _ _ => .ok "new"⟩ [] false false
        ⟨[(["s"], ⟨"cur", 0⟩), (["s.bak"], ⟨"other", 0⟩), (["d"], ⟨"z", 0⟩)],
         "", "", ""⟩ 6).2.2.2 = .ok true
    ∧ fsLookup (TemplateOperation.apply
        ⟨.cached ["s"] false, .fileSystem ["d"], none⟩
        ⟨[(["s"], "x")], fun _ => true, fun _ _ => .ok "new"⟩ [] false false
        ⟨[(["s"], ⟨"cur", 0⟩), (["s.bak"], ⟨"other", 0⟩), (["d"], ⟨"z", 0⟩)],
         "", "", ""⟩ 6).2.2.1.fs ["s.bak"] = some ⟨"other", 0⟩ := by
  have h := backup_consumed_on_first_apply ["s"] false ["d"] "bak"
    ⟨[(["s"], "x")], fun _ => true, fun _ _ => .ok "new"⟩ [] false
    ⟨[(["s"], ⟨"cur", 0⟩), (["s.bak"], ⟨"other", 0⟩), (["d"], ⟨"z", 0⟩)],
     "", "", ""⟩ 5 6
    ⟨"cur", 0⟩ ⟨"other", 0⟩ ⟨"z", 0⟩ ["s.bak"] "new"
    (by decide) rfl rfl rfl (by decide) rfl (by decide) (by decide)
  exact ⟨h.1, h.2.1, h.2.2.2⟩

/-- C8: `Plan.execute` applies every operation in order, skipping a
failing operation (its error is logged) and continuing with the rest,
returning the operations that reported a change; `Plan.try_execute`
agrees with `execute` whenever it succeeds, but aborts on the first
failing apply, propagating that error with the remaining operations left
untouched (not applied). -/
theorem execute_vs_try_execute :
    (∀ (ops : Plan) (env : Engine) (ctx : Ctx) (dr ld : Bool) (w : World)
        (now : Nat) (ops1 : Plan) (env1 : Engine) (w1 : World)
        (lst : List TemplateOperation),
        Plan.try_execute ops env ctx dr ld w now = (ops1, env1, w1, .ok lst) →
        Plan.execute ops env ctx dr ld w now = (ops1, env1, w1, lst))
    ∧ (∀ (op : TemplateOperation) (rest : Plan) (env : Engine) (ctx : Ctx)
        (dr ld : Bool) (w : World) (now : Nat) (op1 : TemplateOperation)
        (env1 : Engine) (w1 : World) (e : Error),
        TemplateOperation.apply op env ctx dr ld w now = (op1, env1, w1, .error e) →
        Plan.try_execute (op :: rest) env ctx dr ld w now =
          (op1 :: rest, env1, w1, .error e)
        ∧ Plan.execute (op :: rest) env ctx dr ld w now =
            (op1 :: (Plan.execute rest env1 ctx dr ld w1 now).1,
             (Plan.execute rest env1 ctx dr ld w1 now).2.1,
             (Plan.execute rest env1 ctx dr ld w1 now).2.2.1,
             (Plan.execute rest env1 ctx dr ld w1 now).2.2.2)) := by
  constructor
  · intro ops env ctx dr ld w now
    induction ops generalizing env w with
    | nil =>
      intro ops1 env1 w1 lst h
      simp_all [Plan.try_execute, Plan.execute]
    | cons op rest ih =>
      intro ops1 env1 w1 lst h
      rcases hap : TemplateOperation.apply op env ctx dr ld w now with
        ⟨op2, env2, w2, res⟩
      cases res with
      | error e =>
        rw [Plan.try_execute, hap] at h
        simp at h
      | ok changed =>
        rw [Plan.try_execute, hap] at h
        dsimp only at h
        rcases htr : Plan.try_execute rest env2 ctx dr ld w2 now with
          ⟨rest1, env3, w3, res2⟩
        cases res2 with
        | error e =>
          rw [htr] at h
          simp at h
        | ok lst2 =>
          rw [htr] at h
          dsimp only at h
          simp only [Prod.mk.injEq] at h
          obtain ⟨h1, h2, h3, h4⟩ := h
          rw [Plan.execute, hap]
          dsimp only
          rw [ih env2 w2 rest1 env3 w3 lst2 htr]
          cases changed <;> simp_all
  · intro op rest env ctx dr ld w now op1 env1 w1 e hap
    constructor
    · rw [Plan.try_execute, hap]
    · rw [Plan.execute, hap]

/-- Witness for C8: a plan whose first operation cannot read its template
aborts `try_execute` with the I/O error, leaving the second operation
untouched, while `execute` skips the failure and continues. -/
theorem execute_vs_try_execute_witness :
    Plan.try_execute
        [⟨.fileSystem ["missing"], .stdOut, none⟩, ⟨.cached ["t"] false, .stdOut, none⟩]
        ⟨[(["t"], "x")], fun _ => true, fun _ _ => .ok "R"⟩ [] false false
        ⟨[], "", "", ""⟩ 0 =
      ([⟨.fileSystem ["missing"], .stdOut, none⟩, ⟨.cached ["t"] false, .stdOut, none⟩],
       ⟨[(["t"], "x")], fun _ => true, fun _ _ => .ok "R"⟩,
       ⟨[], "", "", ""⟩, .error (.ioError "open"))
    ∧ Plan.execute
        [⟨.fileSystem ["missing"], .stdOut, none⟩, ⟨.cached ["t"] false, .stdOut, none⟩]
        ⟨[(["t"], "x")], fun _ => true, fun _ _ => .ok "R"⟩ [] false false
        ⟨[], "", "", ""⟩ 0 =
      ([⟨.fileSystem ["missing"], .stdOut, none⟩, ⟨.cached ["t"] false, .stdOut, none⟩],
       ⟨[(["t"], "x")], fun _ => true, fun _ _ => .ok "R"⟩,
       ⟨[], "", "R", ""⟩, [⟨.cached ["t"] false, .stdOut, none⟩])
    ∧ Plan.try_execute [⟨.cached ["t"] false, .stdOut, none⟩]
        ⟨[(["t"], "x")], fun _ => true, fun _ _ => .ok "R"⟩ [] false false
        ⟨[], "", "", ""⟩ 0 =
      ([⟨.cached ["t"] false, .stdOut, none⟩],
       ⟨[(["t"], "x")], fun _ => true, fun _ _ => .ok "R"⟩,
       ⟨[], "", "R", ""⟩, .ok [⟨.cached ["t"] false, .stdOut, none⟩])
    ∧ Plan.execute [⟨.cached ["t"] false, .stdOut, none⟩]
        ⟨[(["t"], "x")], fun _ => true, fun _ _ => .ok "R"⟩ [] false false
        ⟨[], "", "", ""⟩ 0 =
      ([⟨.cached ["t"] false, .stdOut, none⟩],
       ⟨[(["t"], "x")], fun _ => true, fun _ _ => .ok "R"⟩,
       ⟨[], "", "R", ""⟩, [⟨.cached ["t"] false, .stdOut, none⟩]) := by
  refine ⟨?_, ?_, rfl, ?_⟩
  · exact (execute_vs_try_execute.2 ⟨.fileSystem ["missing"], .stdOut, none⟩
      [⟨.cached ["t"] false, .stdOut, none⟩]
      ⟨[(["t"], "x")], fun _ => true, fun _ _ => .ok "R"⟩ [] false false
      ⟨[], "", "", ""⟩ 0 ⟨.fileSystem ["missing"], .stdOut, none⟩
      ⟨[(["t"], "x")], fun _ => true, fun _ _ => .ok "R"⟩
      ⟨[], "", "", ""⟩ (.ioError "open") rfl).1
  · exact ((execute_vs_try_execute.2 ⟨.fileSystem ["missing"], .stdOut, none⟩
      [⟨.cached ["t"] false, .stdOut, none⟩]
      ⟨[(["t"], "x")], fun _ => true, fun _ _ => .ok "R"⟩ [] false false
      ⟨[], "", "", ""⟩ 0 ⟨.fileSystem ["missing"], .stdOut, none⟩
      ⟨[(["t"], "x")], fun _ => true, fun _ _ => .ok "R"⟩
      ⟨[], "", "", ""⟩ (.ioError "open") rfl).2).trans rfl
  · exact (execute_vs_try_execute.1 [⟨.cached ["t"] false, .stdOut, none⟩]
      ⟨[(["t"], "x")], fun _ => true, fun _ _ => .ok "R"⟩ [] false false
      ⟨[], "", "", ""⟩ 0 [⟨.cached ["t"] false, .stdOut, none⟩]
      ⟨[(["t"], "x")], fun _ => true, fun _ _ => .ok "R"⟩
      ⟨[], "", "R", ""⟩ [⟨.cached ["t"] false, .stdOut, none⟩] rfl)
